import Mathlib

/-!
Verification of the 2022 day07 filesystem-reconstruction module
(src/rust/2022/day07/src/lib.rs).

The module builds a tree of disk items from a shell-session transcript and
answers two queries: the sum of the sizes of all directories whose total size
is at most a threshold (`sum_directory_sizes_of`), and the smallest directory
size at least a required deficit (`directory_size_to_free`).

Embedding choices, each justified against the Rust source:

* `DiskItem` mirrors the Rust enum with variants `File { size: usize }` and
  `Directory { parent, children: HashMap<String, DiskItemType> }`.  The
  children map is modelled as an association list with unique keys;
  `insertChild` mirrors `HashMap::insert` (replace the stored value when the
  key is already present, otherwise add the binding).  Every fold the code
  performs over the map values (a sum, or a filtered minimum) is commutative
  and associative, so the unspecified `HashMap` iteration order is
  irrelevant and the list order is a faithful representative.
* Sizes are `Nat` for Rust `usize`; no claim exercises machine-width
  overflow, and intended inputs are far below 2^64.
* The `Rc<RefCell<...>>` sharing plus `Weak` parent back-references of the
  builder are modelled by a persistent root tree plus a cursor that is the
  path of names from the root (`PState`).  Mutations happen only at the
  cursor's node, and nodes never move to a different parent, so the stored
  parent pointer of a node always denotes the directory the path reaches it
  through; `cd ..` is dropping the last path component, and the root is
  exactly the node with path `[]` (the only directory created with
  `parent = None`).  `current_directory: Option<...>` becomes
  `cur : Option (List String)`.
* Rust panics (`expect` / `unwrap`) abort the build; the builder therefore
  returns an `Option`, `none` meaning a panic.
* Rust `str::starts_with` and `str::split(' ')` are re-implemented over
  `List Char` (`List.isPrefixOf`, `splitChar`) so that everything computes
  inside the kernel; `line.data` is the character list of a line.
-/

namespace Day07

/-- Disk item: a File with a fixed size, or a Directory with named children.
Mirrors the Rust enum `DiskItem` (the `parent` back-reference is navigational
only and is represented by the cursor path in `PState`). -/
inductive DiskItem where
  | file (size : Nat)
  | directory (children : List (String × DiskItem))

/-- Models `HashMap::get` on the children map (`Directory::get_child`). -/
def lookupChild : List (String × DiskItem) → String → Option DiskItem
  | [], _ => none
  | (m, c) :: rest, n => if m = n then some c else lookupChild rest n

/-- Models `HashMap::insert` on the children map (`Directory::add_child`):
replaces the stored item in place when the name is already bound, otherwise
appends the new binding. -/
def insertChild : List (String × DiskItem) → String → DiskItem → List (String × DiskItem)
  | [], n, it => [(n, it)]
  | (m, c) :: rest, n, it =>
    if m = n then (n, it) :: rest else (m, c) :: insertChild rest n it

mutual

/-- Models the `SizableDiskItem` trait: a File reports its stored size, a
Directory reports the sum of the sizes of its children
(`self.children.values().map(|item| item.borrow().size()).sum()`). -/
def DiskItem.size : DiskItem → Nat
  | .file s => s
  | .directory cs => childrenSize cs

/-- The sum of the sizes of the items of a children map. -/
def childrenSize : List (String × DiskItem) → Nat
  | [] => 0
  | (_, it) :: rest => DiskItem.size it + childrenSize rest

end

mutual

/-- Models `sum_directory_sizes_of(max_size, directory)`: on a Directory,
sum the recursive results over the child directories and add the directory's
own size when it is at most `max_size`; on a File, 0. -/
def sum_directory_sizes_of (max_size : Nat) : DiskItem → Nat
  | .file _ => 0
  | .directory cs =>
    sumDirs max_size cs + (if childrenSize cs ≤ max_size then childrenSize cs else 0)

/-- The sum of `sum_directory_sizes_of` over the children.  The Rust code
iterates over `current_directory.directories()`, which skips File children;
recursing into a File returns 0, so folding over all children is the same
sum. -/
def sumDirs (max_size : Nat) : List (String × DiskItem) → Nat
  | [] => 0
  | (_, it) :: rest => sum_directory_sizes_of max_size it + sumDirs max_size rest

end

/-- Combines two results of the `directory_size_to_free` recursion, where 0
means "no qualifying directory".  Folding `combineMin` is the model of the
Rust `.filter(|size| *size > 0).min().unwrap_or(0)`. -/
def combineMin (a b : Nat) : Nat :=
  if a = 0 then b else if b = 0 then a else min a b

mutual

/-- Models `directory_size_to_free(min_size, directory)`: on a Directory,
take the minimum positive recursive result over the child directories
(0 when there is none), then return the minimum of it and the directory's own
size when the own size qualifies, the own size when only it qualifies, and 0
otherwise; on a File, 0. -/
def directory_size_to_free (min_size : Nat) : DiskItem → Nat
  | .file _ => 0
  | .directory cs =>
    if min_size ≤ childrenSize cs ∧ 0 < minPos min_size cs then
      min (childrenSize cs) (minPos min_size cs)
    else if min_size ≤ childrenSize cs then childrenSize cs
    else 0

/-- The minimum positive recursive result over the children (0 when none).
As with `sumDirs`, the Rust iterator skips File children; a File recursion
returns 0, which `combineMin` ignores, so folding over all children agrees. -/
def minPos (min_size : Nat) : List (String × DiskItem) → Nat
  | [] => 0
  | (_, it) :: rest => combineMin (directory_size_to_free min_size it) (minPos min_size rest)

end

mutual

/-- Specification-side list of the aggregated sizes of all Directory nodes of
a tree: a Directory contributes its own size and, recursively, the sizes of
the directories below it; a File contributes nothing. -/
def dirSizes : DiskItem → List Nat
  | .file _ => []
  | .directory cs => childrenSize cs :: dirSizesL cs

/-- Directory sizes contributed by a children map. -/
def dirSizesL : List (String × DiskItem) → List Nat
  | [] => []
  | (_, it) :: rest => dirSizes it ++ dirSizesL rest

end

mutual

/-- Specification-side list of the stored sizes of all File leaves of a
tree. -/
def fileSizes : DiskItem → List Nat
  | .file s => [s]
  | .directory cs => fileSizesL cs

/-- File sizes contributed by a children map. -/
def fileSizesL : List (String × DiskItem) → List Nat
  | [] => []
  | (_, it) :: rest => fileSizes it ++ fileSizesL rest

end

/-- Models Rust `str::split(c)` on a character list: maximal runs between
separators, keeping empty fragments (so the result is never empty and a
leading, trailing or doubled separator yields an empty fragment). -/
def splitChar (sep : Char) : List Char → List (List Char)
  | [] => [[]]
  | c :: rest =>
    let r := splitChar sep rest
    if c = sep then [] :: r
    else
      match r with
      | [] => [[c]]
      | w :: ws => (c :: w) :: ws

/-- Models Rust `str::parse::<usize>()`: an optional leading plus sign
followed by at least one ASCII digit (machine-width overflow, which the
intended inputs never reach, is not modelled). -/
def parseUsize (w : List Char) : Option Nat :=
  let w' := match w with
    | '+' :: rest => rest
    | _ => w
  if w' = [] then none
  else if w'.all (fun c => c.isDigit) then
    some (w'.foldl (fun a c => a * 10 + (c.toNat - '0'.toNat)) 0)
  else none

/-- Reads the item at a path of names below a tree (the path `[]` is the
tree's root itself). -/
def getAt : DiskItem → List String → Option DiskItem
  | t, [] => some t
  | .directory cs, n :: p =>
    match lookupChild cs n with
    | some c => getAt c p
    | none => none
  | .file _, _ :: _ => none

/-- Rewrites the children map of the directory at a path of names; leaves the
tree unchanged when the path does not end at a Directory (mirroring the
builder's bodyless `if let DiskItem::Directory` patterns). -/
def modifyAt : DiskItem → List String → (List (String × DiskItem) → List (String × DiskItem)) → DiskItem
  | .directory cs, [], f => .directory (f cs)
  | .directory cs, n :: p, f =>
    match lookupChild cs n with
    | some c => .directory (insertChild cs n (modifyAt c p f))
    | none => .directory cs
  | .file s, _, _ => .file s

/-- Builder state of `command_text_parser::parse`: the root tree (held by the
`root_directory` Rc) and the `current_directory` cursor, as the path of names
from the root (`none` models `current_directory == None`). -/
structure PState where
  root : DiskItem
  cur : Option (List String)

/-- One iteration of the line loop of `command_text_parser::parse`.  `none`
models a Rust panic (`expect` / `unwrap`), which aborts the build. -/
def step (s : PState) (line : String) : Option PState :=
  let tokens := splitChar ' ' line.data
  if ("$ cd".data).isPrefixOf line.data then
    match tokens[2]? with
    | none => none
    | some w =>
      if w = "/".data then some { s with cur := some [] }
      else if w = "..".data then
        match s.cur with
        | none => none
        | some p =>
          match getAt s.root p with
          | some (.directory _) =>
            match p with
            | [] => none
            | _ :: _ => some { s with cur := some p.dropLast }
          | some (.file _) => some { s with cur := none }
          | none => none
      else
        match s.cur with
        | none => none
        | some p =>
          match getAt s.root p with
          | some (.directory cs) =>
            match lookupChild cs (String.mk w) with
            | none => none
            | some _ => some { s with cur := some (p ++ [String.mk w]) }
          | some (.file _) => some { s with cur := none }
          | none => none
  else if ("$ ls".data).isPrefixOf line.data then
    some s
  else
    match tokens with
    | [] => none
    | first :: rest =>
      if first = "dir".data then
        match rest[0]? with
        | none => none
        | some w =>
          match s.cur with
          | none => none
          | some p =>
            some { s with
              root := modifyAt s.root p (fun cs => insertChild cs (String.mk w) (.directory [])) }
      else
        match rest[0]? with
        | none => none
        | some w =>
          match s.cur with
          | none => none
          | some p =>
            match getAt s.root p with
            | some (.directory _) =>
              match parseUsize first with
              | none => none
              | some sz =>
                some { s with
                  root := modifyAt s.root p (fun cs => insertChild cs (String.mk w) (.file sz)) }
            | _ => some s

/-- Runs `step` over the lines in order, stopping at the first failure. -/
def stepAll : PState → List String → Option PState
  | s, [] => some s
  | s, line :: rest =>
    match step s line with
    | none => none
    | some s2 => stepAll s2 rest

/-- Models `command_text_parser::parse`: start from a fresh root Directory
with the cursor on it, process every line, and return the root. -/
def parse (lines : List String) : Option DiskItem :=
  match stepAll { root := .directory [], cur := some [] } lines with
  | none => none
  | some s => some s.root

/-- The tree-level body of `directory_size_to_free_30_000_000` (everything
after the parse): `min_size = 30_000_000 - (70_000_000 - size)` as `isize`,
then the query when `min_size >= 0` and the sentinel `-1` otherwise. -/
def directory_size_to_free_30_000_000_tree (root : DiskItem) : Int :=
  let min_size : Int := 30000000 - (70000000 - (DiskItem.size root : Int))
  if 0 ≤ min_size then (directory_size_to_free min_size.toNat root : Int)
  else -1

/-- Models `directory_size_to_free_30_000_000` (part two entry point). -/
def directory_size_to_free_30_000_000 (lines : List String) : Option Int :=
  (parse lines).map directory_size_to_free_30_000_000_tree

/-- Models `sum_directory_sizes_of_100_000` (part one entry point). -/
def sum_directory_sizes_of_100_000 (lines : List String) : Option Nat :=
  (parse lines).map (fun root => sum_directory_sizes_of 100000 root)

/-! ### Characterisation of Query A -/

mutual

theorem sum_directory_sizes_of_eq_filter_sum :
    ∀ (T : Nat) (t : DiskItem),
      sum_directory_sizes_of T t = ((dirSizes t).filter (fun s => decide (s ≤ T))).sum
  | _, .file _ => by simp [sum_directory_sizes_of, dirSizes]
  | T, .directory cs => by
    rw [sum_directory_sizes_of, dirSizes, List.filter_cons,
      sumDirs_eq_filter_sum T cs]
    by_cases h : childrenSize cs ≤ T
    · rw [if_pos h,
        if_pos (show decide (childrenSize cs ≤ T) = true by simp [h]), List.sum_cons]
      omega
    · rw [if_neg h,
        if_neg (show ¬decide (childrenSize cs ≤ T) = true by simp [h])]
      omega

theorem sumDirs_eq_filter_sum :
    ∀ (T : Nat) (cs : List (String × DiskItem)),
      sumDirs T cs = ((dirSizesL cs).filter (fun s => decide (s ≤ T))).sum
  | _, [] => by simp [sumDirs, dirSizesL]
  | T, (_, it) :: rest => by
    rw [sumDirs, dirSizesL, List.filter_append, List.sum_append,
      sum_directory_sizes_of_eq_filter_sum T it, sumDirs_eq_filter_sum T rest]

end

/-! ### Monotonicity of aggregated sizes -/

mutual

theorem mem_dirSizes_le : ∀ (t : DiskItem) (s : Nat), s ∈ dirSizes t → s ≤ DiskItem.size t
  | .file _, s => by simp [dirSizes]
  | .directory cs, s => by
    intro h
    rw [dirSizes] at h
    rw [DiskItem.size]
    rcases List.mem_cons.mp h with h1 | h2
    · omega
    · exact mem_dirSizesL_le cs s h2

theorem mem_dirSizesL_le :
    ∀ (cs : List (String × DiskItem)) (s : Nat), s ∈ dirSizesL cs → s ≤ childrenSize cs
  | [], s => by simp [dirSizesL]
  | (_, it) :: rest, s => by
    intro h
    rw [dirSizesL] at h
    rw [childrenSize]
    rcases List.mem_append.mp h with h1 | h2
    · have := mem_dirSizes_le it s h1
      omega
    · have := mem_dirSizesL_le rest s h2
      omega

end

/-! ### The aggregated size is the sum of the File leaves -/

mutual

theorem fileSizes_sum : ∀ t : DiskItem, (fileSizes t).sum = DiskItem.size t
  | .file s => by simp [fileSizes, DiskItem.size]
  | .directory cs => by
    rw [fileSizes, DiskItem.size]
    exact fileSizesL_sum cs

theorem fileSizesL_sum : ∀ cs : List (String × DiskItem), (fileSizesL cs).sum = childrenSize cs
  | [] => by simp [fileSizesL, childrenSize]
  | (_, it) :: rest => by
    rw [fileSizesL, childrenSize, List.sum_append, fileSizes_sum it, fileSizesL_sum rest]

end

/-! ### Characterisation of Query B -/

theorem combineMin_zero_left (b : Nat) : combineMin 0 b = b := by
  simp [combineMin]

theorem combineMin_zero_right (a : Nat) : combineMin a 0 = a := by
  unfold combineMin
  rcases Nat.eq_zero_or_pos a with h | h
  · simp [h]
  · rw [if_neg (by omega)]
    simp

theorem combineMin_pos {a b : Nat} (ha : a ≠ 0) (hb : b ≠ 0) : combineMin a b = min a b := by
  unfold combineMin
  rw [if_neg ha, if_neg hb]

theorem combineMin_assoc (a b c : Nat) :
    combineMin (combineMin a b) c = combineMin a (combineMin b c) := by
  rcases Nat.eq_zero_or_pos a with ha | ha
  · rw [ha, combineMin_zero_left, combineMin_zero_left]
  rcases Nat.eq_zero_or_pos b with hb | hb
  · rw [hb, combineMin_zero_left, combineMin_zero_right]
  rcases Nat.eq_zero_or_pos c with hc | hc
  · rw [hc, combineMin_zero_right, combineMin_zero_right]
  rw [@combineMin_pos a b (by omega) (by omega), @combineMin_pos b c (by omega) (by omega),
    @combineMin_pos (min a b) c (by omega) (by omega),
    @combineMin_pos a (min b c) (by omega) (by omega)]
  exact min_assoc a b c

theorem foldr_combineMin_init (l : List Nat) (x : Nat) :
    l.foldr combineMin x = combineMin (l.foldr combineMin 0) x := by
  induction l with
  | nil => simp [combineMin]
  | cons a l ih => rw [List.foldr_cons, List.foldr_cons, ih, combineMin_assoc]

theorem foldr_combineMin_spec (l : List Nat) (hpos : ∀ x ∈ l, 0 < x) (hne : l ≠ []) :
    l.foldr combineMin 0 ∈ l ∧ ∀ x ∈ l, l.foldr combineMin 0 ≤ x := by
  induction l with
  | nil => exact absurd rfl hne
  | cons a l ih =>
    cases l with
    | nil =>
      have h1 : combineMin a 0 = a := by
        unfold combineMin
        rcases Nat.eq_zero_or_pos a with h | h
        · simp [h]
        · rw [if_neg (by omega)]
          simp
      simp [List.foldr_cons, List.foldr_nil, h1]
    | cons b l2 =>
      have hpos2 : ∀ x ∈ b :: l2, 0 < x := fun x hx => hpos x (List.mem_cons_of_mem a hx)
      obtain ⟨hmem, hbound⟩ := ih hpos2 (by simp)
      have hF : 0 < (b :: l2).foldr combineMin 0 := hpos2 _ hmem
      have ha : 0 < a := hpos a (List.mem_cons_self a (b :: l2))
      rw [List.foldr_cons]
      have hcm : combineMin a ((b :: l2).foldr combineMin 0)
          = min a ((b :: l2).foldr combineMin 0) :=
        combineMin_pos (by omega) (by omega)
      rw [hcm]
      constructor
      · rcases Nat.le_total a ((b :: l2).foldr combineMin 0) with h | h
        · rw [Nat.min_eq_left h]
          exact List.mem_cons_self _ _
        · rw [Nat.min_eq_right h]
          exact List.mem_cons_of_mem a hmem
      · intro x hx
        rcases List.mem_cons.mp hx with rfl | hx2
        · exact Nat.min_le_left _ _
        · exact Nat.le_trans (Nat.min_le_right _ _) (hbound x hx2)

mutual

theorem directory_size_to_free_eq :
    ∀ (d : Nat) (t : DiskItem), 0 < d →
      directory_size_to_free d t
        = ((dirSizes t).filter (fun s => decide (d ≤ s))).foldr combineMin 0
  | _, .file _, _ => by simp [directory_size_to_free, dirSizes]
  | d, .directory cs, hd => by
    rw [directory_size_to_free, dirSizes, List.filter_cons, minPos_eq d cs hd]
    by_cases hs : d ≤ childrenSize cs
    · rw [if_pos (show decide (d ≤ childrenSize cs) = true by simp [hs]), List.foldr_cons]
      by_cases hm : 0 < ((dirSizesL cs).filter (fun s => decide (d ≤ s))).foldr combineMin 0
      · rw [if_pos ⟨hs, hm⟩,
          @combineMin_pos (childrenSize cs)
            (((dirSizesL cs).filter (fun s => decide (d ≤ s))).foldr combineMin 0)
            (by omega) (by omega)]
      · rw [if_neg (fun hc => hm hc.2), if_pos hs]
        have hF : ((dirSizesL cs).filter (fun s => decide (d ≤ s))).foldr combineMin 0 = 0 := by
          omega
        rw [hF, combineMin_zero_right]
    · have hnil : (dirSizesL cs).filter (fun s => decide (d ≤ s)) = [] := by
        rw [List.filter_eq_nil_iff]
        intro a ha
        have := mem_dirSizesL_le cs a ha
        simp only [decide_eq_true_eq]
        omega
      rw [hnil]
      simp [hs]

theorem minPos_eq :
    ∀ (d : Nat) (cs : List (String × DiskItem)), 0 < d →
      minPos d cs = ((dirSizesL cs).filter (fun s => decide (d ≤ s))).foldr combineMin 0
  | _, [], _ => by simp [minPos, dirSizesL]
  | d, (_, it) :: rest, hd => by
    rw [minPos, dirSizesL, List.filter_append, List.foldr_append,
      directory_size_to_free_eq d it hd, minPos_eq d rest hd,
      foldr_combineMin_init ((dirSizes it).filter (fun s => decide (d ≤ s)))
        (((dirSizesL rest).filter (fun s => decide (d ≤ s))).foldr combineMin 0)]

end

/-! ### Children-map and path lemmas for the builder -/

theorem lookupChild_insertChild_self (cs : List (String × DiskItem)) (n : String) (it : DiskItem) :
    lookupChild (insertChild cs n it) n = some it := by
  induction cs with
  | nil => simp [insertChild, lookupChild]
  | cons hd rest ih =>
    obtain ⟨m, c⟩ := hd
    rw [insertChild]
    by_cases h : m = n
    · rw [if_pos h, lookupChild, if_pos rfl]
    · rw [if_neg h, lookupChild, if_neg h]
      exact ih

theorem getAt_modifyAt :
    ∀ (p : List String) (t : DiskItem) (cs : List (String × DiskItem))
      (f : List (String × DiskItem) → List (String × DiskItem)),
      getAt t p = some (.directory cs) →
      getAt (modifyAt t p f) p = some (.directory (f cs))
  | [], t, cs, f => by
    intro h
    rw [getAt] at h
    injection h with h
    subst h
    rw [modifyAt, getAt]
  | n :: p, t, cs, f => by
    intro h
    cases t with
    | file s =>
      simp only [getAt] at h
      exact Option.noConfusion h
    | directory cs0 =>
      simp only [getAt] at h
      cases hl : lookupChild cs0 n with
      | none =>
        simp only [hl] at h
        exact Option.noConfusion h
      | some c =>
        simp only [hl] at h
        rw [modifyAt]
        simp only [hl]
        rw [getAt]
        simp only [lookupChild_insertChild_self]
        exact getAt_modifyAt p c cs f h

theorem filter_sum_le (p : Nat → Bool) (l : List Nat) : (l.filter p).sum ≤ l.sum := by
  induction l with
  | nil => simp
  | cons a l ih =>
    rw [List.filter_cons]
    by_cases h : p a = true
    · rw [if_pos h, List.sum_cons, List.sum_cons]
      omega
    · rw [if_neg h, List.sum_cons]
      omega

/-! ### The claims -/

/-- C1: Query A functional correctness — for every tree built by the Tree
Builder and every threshold `T`, `sum_directory_sizes_of` returns exactly the
sum of the aggregated sizes of those Directories in the tree (the root
included, Files excluded) whose own size is at most `T`; in particular it
returns 0 when no directory qualifies (the filtered list is then empty). -/
theorem claim_C1_queryA_correct (lines : List String) (root : DiskItem) (T : Nat)
    (_hparse : parse lines = some root) :
    sum_directory_sizes_of T root = ((dirSizes root).filter (fun s => decide (s ≤ T))).sum :=
  sum_directory_sizes_of_eq_filter_sum T root

/-- Witness for C1 on the tree built from a concrete transcript. -/
theorem claim_C1_witness :
    sum_directory_sizes_of 100000
        (DiskItem.directory [("a", DiskItem.directory [("f", DiskItem.file 10)])])
      = ((dirSizes (DiskItem.directory [("a", DiskItem.directory [("f", DiskItem.file 10)])])).filter
          (fun s => decide (s ≤ 100000))).sum :=
  claim_C1_queryA_correct ["$ cd /", "dir a", "$ cd a", "10 f"]
    (DiskItem.directory [("a", DiskItem.directory [("f", DiskItem.file 10)])]) 100000 rfl

/-- Counterexample to C2 as stated: with the empty root directory and deficit
`d = 5 > 0` (no sentinel is involved in `directory_size_to_free` itself), the
returned value is 0, which is not at least `d`, so the returned value is not
a qualifying directory size. -/
theorem claim_C2_counterexample :
    0 < 5 ∧ directory_size_to_free 5 (DiskItem.directory []) < 5 := by
  decide

/-- C2 amended: for every tree and every deficit `d > 0`, provided at least
one Directory of the tree has size at least `d` (which always holds in the
Query B wrapper, where the root qualifies whenever the deficit is positive),
the value returned by `directory_size_to_free` is the size of some Directory
in the tree, is at least `d`, and is the minimum aggregated size among all
Directories whose size is at least `d`.  When no directory qualifies the
function instead returns 0. -/
theorem claim_C2_min_qualifying (t : DiskItem) (d : Nat) (hd : 0 < d)
    (hex : ∃ s, s ∈ dirSizes t ∧ d ≤ s) :
    directory_size_to_free d t ∈ dirSizes t
      ∧ d ≤ directory_size_to_free d t
      ∧ ∀ s ∈ dirSizes t, d ≤ s → directory_size_to_free d t ≤ s := by
  obtain ⟨s0, hs0mem, hs0d⟩ := hex
  have hchar := directory_size_to_free_eq d t hd
  set l := (dirSizes t).filter (fun s => decide (d ≤ s)) with hl
  have hne : l ≠ [] := by
    have hmem0 : s0 ∈ l := List.mem_filter.mpr ⟨hs0mem, by simp [hs0d]⟩
    exact List.ne_nil_of_mem hmem0
  have hpos : ∀ x ∈ l, 0 < x := by
    intro x hx
    have hpx := List.of_mem_filter hx
    simp only [decide_eq_true_eq] at hpx
    omega
  obtain ⟨hmem, hbound⟩ := foldr_combineMin_spec l hpos hne
  rw [hchar]
  refine ⟨List.mem_of_mem_filter hmem, ?_, ?_⟩
  · have hpf := List.of_mem_filter hmem
    simp only [decide_eq_true_eq] at hpf
    exact hpf
  · intro s hs hds
    exact hbound s (List.mem_filter.mpr ⟨hs, by simp [hds]⟩)

/-- Witness for C2 (amended) at a concrete tree and deficit. -/
theorem claim_C2_witness :
    directory_size_to_free 30 (DiskItem.directory [("f", DiskItem.file 50)])
        ∈ dirSizes (DiskItem.directory [("f", DiskItem.file 50)])
      ∧ 30 ≤ directory_size_to_free 30 (DiskItem.directory [("f", DiskItem.file 50)])
      ∧ ∀ s ∈ dirSizes (DiskItem.directory [("f", DiskItem.file 50)]),
          30 ≤ s → directory_size_to_free 30 (DiskItem.directory [("f", DiskItem.file 50)]) ≤ s :=
  claim_C2_min_qualifying (DiskItem.directory [("f", DiskItem.file 50)]) 30 (by decide)
    ⟨50, by decide, by decide⟩

/-- Counterexample to C3 as stated: a root whose used size is exactly
40,000,000 gives deficit `30,000,000 - (70,000,000 - 40,000,000) = 0`, yet
the query does not return the sentinel −1: it returns 40,000,000, because the
code tests `min_size >= 0` (not `> 0`) before running the search. -/
theorem claim_C3_counterexample :
    (30000000 : Int)
        - (70000000 - (DiskItem.size (DiskItem.directory [("f", DiskItem.file 40000000)]) : Int)) = 0
      ∧ directory_size_to_free_30_000_000_tree (DiskItem.directory [("f", DiskItem.file 40000000)])
          = 40000000 := by
  constructor
  · decide
  · decide

/-- C3 amended: the sentinel −1 is returned exactly when the deficit
`30,000,000 - (70,000,000 - size(root))` is strictly negative; at deficit 0
(and any non-negative deficit) the query runs the search and returns a
non-negative directory size instead. -/
theorem claim_C3_sentinel_iff (t : DiskItem) :
    directory_size_to_free_30_000_000_tree t = -1
      ↔ (30000000 : Int) - (70000000 - (DiskItem.size t : Int)) < 0 := by
  simp only [directory_size_to_free_30_000_000_tree]
  by_cases h : (0 : Int) ≤ 30000000 - (70000000 - (DiskItem.size t : Int))
  · rw [if_pos h]
    constructor
    · intro heq
      omega
    · intro hlt
      omega
  · rw [if_neg h]
    constructor
    · intro _
      omega
    · intro _
      rfl

/-- Counterexample to C4 as stated: Query A counts every qualifying directory
with its full aggregated size, so nested directories are counted repeatedly;
for the built tree `/a/f` with one file of size 10, the query at threshold
100,000 returns 10 (root) + 10 (a) = 20, which exceeds the root size 10. -/
theorem claim_C4_counterexample :
    DiskItem.size (DiskItem.directory [("a", DiskItem.directory [("f", DiskItem.file 10)])])
      < sum_directory_sizes_of 100000
          (DiskItem.directory [("a", DiskItem.directory [("f", DiskItem.file 10)])]) := by
  decide

/-- C4 amended: Query A's result never exceeds the sum of the aggregated
sizes of all Directories in the tree (it can exceed the root's size alone,
as nested qualifying directories are each counted in full). -/
theorem claim_C4_sum_le_total_dirSizes (T : Nat) (t : DiskItem) :
    sum_directory_sizes_of T t ≤ (dirSizes t).sum := by
  rw [sum_directory_sizes_of_eq_filter_sum]
  exact filter_sum_le _ _

/-- C7: Round-trip — for every tree built by the Tree Builder from a
transcript, the sum of the stored sizes of all File leaves under the root
equals the root's aggregated size as computed by the Size Aggregator. -/
theorem claim_C7_roundtrip (lines : List String) (root : DiskItem)
    (_hparse : parse lines = some root) :
    (fileSizes root).sum = DiskItem.size root :=
  fileSizes_sum root

/-- Witness for C7 on the tree built from the scenario-1 transcript. -/
theorem claim_C7_witness :
    (fileSizes (DiskItem.directory
        [("b.txt", DiskItem.file 14848514), ("c.dat", DiskItem.file 8504156)])).sum
      = DiskItem.size (DiskItem.directory
          [("b.txt", DiskItem.file 14848514), ("c.dat", DiskItem.file 8504156)]) :=
  claim_C7_roundtrip ["$ cd /", "$ ls", "14848514 b.txt", "8504156 c.dat"]
    (DiskItem.directory [("b.txt", DiskItem.file 14848514), ("c.dat", DiskItem.file 8504156)]) rfl

/-- C8: Monotonicity — the aggregated size of a Directory is at least the
aggregated size of each of its direct children (File or Directory). -/
theorem claim_C8_monotonicity :
    ∀ (cs : List (String × DiskItem)) (n : String) (it : DiskItem),
      (n, it) ∈ cs → DiskItem.size it ≤ DiskItem.size (DiskItem.directory cs)
  | [], _, _ => by
    intro hmem
    cases hmem
  | (m, c) :: rest, n, it => by
    intro hmem
    rw [DiskItem.size, childrenSize]
    rcases List.mem_cons.mp hmem with heq | hmem2
    · cases heq
      omega
    · have h2 := claim_C8_monotonicity rest n it hmem2
      rw [DiskItem.size] at h2
      omega

/-- Witness for C8 at a concrete directory and child. -/
theorem claim_C8_witness :
    DiskItem.size (DiskItem.file 7)
      ≤ DiskItem.size (DiskItem.directory [("a", DiskItem.file 7), ("b", DiskItem.file 2)]) :=
  claim_C8_monotonicity [("a", DiskItem.file 7), ("b", DiskItem.file 2)] "a" (DiskItem.file 7)
    (List.mem_cons_self _ _)

/-- Counterexample to C5 as stated: `cd f` where `f` is a File child does not
fail the build — `get_directory_by_name` only checks that a child of that
name exists and happily returns a File, so the whole transcript parses. -/
theorem claim_C5_counterexample :
    parse ["$ cd /", "100 f", "$ cd f"] = some (DiskItem.directory [("f", DiskItem.file 100)]) :=
  rfl

/-- C5 amended: processing a `cd <name>` line (name not `/` or `..`) with the
cursor on a Directory moves the cursor to the existing child of that name
whatever its variant (a File child is entered without error); the build fails
fatally exactly when no child of that name exists. -/
theorem claim_C5_cd_child (s : PState) (line : String) (w : List Char)
    (p : List String) (cs : List (String × DiskItem))
    (hcur : s.cur = some p)
    (hget : getAt s.root p = some (DiskItem.directory cs))
    (hcd : ("$ cd".data).isPrefixOf line.data = true)
    (htok : (splitChar ' ' line.data)[2]? = some w)
    (hslash : w ≠ "/".data)
    (hdots : w ≠ "..".data) :
    (lookupChild cs (String.mk w) = none → step s line = none)
      ∧ ∀ c, lookupChild cs (String.mk w) = some c →
          step s line = some { root := s.root, cur := some (p ++ [String.mk w]) } := by
  constructor
  · intro hnone
    simp [step, hcd, htok, hslash, hdots, hcur, hget, hnone]
  · intro c hsome
    simp [step, hcd, htok, hslash, hdots, hcur, hget, hsome]

/-- Witness for C5 (amended): `cd f` onto a File child succeeds and moves the
cursor onto the File. -/
theorem claim_C5_witness :
    step { root := DiskItem.directory [("f", DiskItem.file 100)], cur := some [] } "$ cd f"
      = some { root := DiskItem.directory [("f", DiskItem.file 100)],
               cur := some ([] ++ [String.mk "f".data]) } :=
  (claim_C5_cd_child
      { root := DiskItem.directory [("f", DiskItem.file 100)], cur := some [] }
      "$ cd f" "f".data [] [("f", DiskItem.file 100)]
      rfl rfl (by decide) (by decide) (by decide) (by decide)).2
    (DiskItem.file 100) rfl

/-- Counterexample to C6 as stated: the line `$ lsx` matches none of the
recognized shapes, yet the build silently skips it (the code only tests the
prefix `$ ls`) and succeeds. -/
theorem claim_C6_counterexample :
    parse ["$ lsx"] = some (DiskItem.directory []) :=
  rfl

/-- C6 amended: with the cursor on a Directory, a line that starts with
neither `$ cd` nor `$ ls` fails the build exactly when it is a malformed
listing: its first token is `dir` with no second token, or its first token is
not `dir` and either there is no second token or the first token does not
parse as a non-negative integer.  Lines starting with `$ ls` (even garbage
such as `$ lsx`) are silently skipped, not rejected. -/
theorem claim_C6_listing_failure_iff (s : PState) (line : String)
    (first : List Char) (rest : List (List Char))
    (p : List String) (cs : List (String × DiskItem))
    (hcur : s.cur = some p)
    (hget : getAt s.root p = some (DiskItem.directory cs))
    (hcd : ("$ cd".data).isPrefixOf line.data = false)
    (hls : ("$ ls".data).isPrefixOf line.data = false)
    (htok : splitChar ' ' line.data = first :: rest) :
    step s line = none
      ↔ ((first = "dir".data ∧ rest = [])
          ∨ (first ≠ "dir".data ∧ (rest = [] ∨ parseUsize first = none))) := by
  by_cases hdir : first = "dir".data
  · subst hdir
    cases rest with
    | nil =>
      have hstep : step s line = none := by
        simp [step, hcd, hls, htok]
      rw [hstep]
      simp
    | cons w ws =>
      have hstep : step s line
          = some (PState.mk
              (modifyAt s.root p (fun cs0 => insertChild cs0 (String.mk w) (DiskItem.directory [])))
              s.cur) := by
        simp [step, hcd, hls, htok, hcur]
      rw [hstep]
      simp
  · cases rest with
    | nil =>
      have hstep : step s line = none := by
        simp [step, hcd, hls, htok, hdir]
      rw [hstep]
      simp [hdir]
    | cons w ws =>
      cases hp : parseUsize first with
      | none =>
        have hstep : step s line = none := by
          simp [step, hcd, hls, htok, hdir, hcur, hget, hp]
        rw [hstep]
        simp [hdir, hp]
      | some sz =>
        have hstep : step s line
            = some (PState.mk
                (modifyAt s.root p (fun cs0 => insertChild cs0 (String.mk w) (DiskItem.file sz)))
                s.cur) := by
          simp [step, hcd, hls, htok, hdir, hcur, hget, hp]
        rw [hstep]
        simp [hdir, hp]

/-- Witness for C6 (amended) at a concrete malformed listing line. -/
theorem claim_C6_witness :
    step { root := DiskItem.directory [], cur := some [] } "hello" = none
      ↔ (("hello".data = "dir".data ∧ ([] : List (List Char)) = [])
          ∨ ("hello".data ≠ "dir".data
              ∧ (([] : List (List Char)) = [] ∨ parseUsize "hello".data = none))) :=
  claim_C6_listing_failure_iff
    { root := DiskItem.directory [], cur := some [] } "hello" "hello".data [] [] []
    rfl rfl (by decide) (by decide) (by decide)

/-- C9: cd-up at the root is fatal — in every builder state whose cursor is
at the root (path `[]`, the directory without a parent reference), processing
`$ cd ..` makes the build fail (the `expect` on the absent parent panics). -/
theorem claim_C9_cd_up_at_root_fails (s : PState) (cs : List (String × DiskItem))
    (hcur : s.cur = some []) (hroot : s.root = DiskItem.directory cs) :
    step s "$ cd .." = none := by
  obtain ⟨root, cur⟩ := s
  have hc : cur = some [] := hcur
  have hr : root = DiskItem.directory cs := hroot
  subst hc
  subst hr
  rfl

/-- Witness for C9 at the freshly created root state. -/
theorem claim_C9_witness :
    step { root := DiskItem.directory [], cur := some [] } "$ cd .." = none :=
  claim_C9_cd_up_at_root_fails { root := DiskItem.directory [], cur := some [] } [] rfl rfl

/-- C10: duplicate listing names silently overwrite — with the cursor on a
Directory that already has a child named `<name>`, a listing line
`dir <name>` replaces that child with a fresh empty Directory (discarding any
previously built subtree) and a listing line `<size> <name>` replaces it with
a new File of that size; in both cases the build succeeds (no failure, no
merge), and the children mapping afterwards binds `<name>` to the new item. -/
theorem claim_C10_duplicate_overwrites (s : PState) (line : String) (w : List Char)
    (p : List String) (cs : List (String × DiskItem)) (old : DiskItem)
    (hcur : s.cur = some p)
    (hget : getAt s.root p = some (DiskItem.directory cs))
    (_hold : lookupChild cs (String.mk w) = some old)
    (hcd : ("$ cd".data).isPrefixOf line.data = false)
    (hls : ("$ ls".data).isPrefixOf line.data = false) :
    (splitChar ' ' line.data = ["dir".data, w] →
        step s line = some (PState.mk
            (modifyAt s.root p (fun cs0 => insertChild cs0 (String.mk w) (DiskItem.directory [])))
            s.cur)
          ∧ getAt (modifyAt s.root p
                (fun cs0 => insertChild cs0 (String.mk w) (DiskItem.directory []))) p
              = some (DiskItem.directory (insertChild cs (String.mk w) (DiskItem.directory [])))
          ∧ lookupChild (insertChild cs (String.mk w) (DiskItem.directory [])) (String.mk w)
              = some (DiskItem.directory []))
      ∧ ∀ (first : List Char) (sz : Nat),
          splitChar ' ' line.data = [first, w] → first ≠ "dir".data →
          parseUsize first = some sz →
          step s line = some (PState.mk
              (modifyAt s.root p (fun cs0 => insertChild cs0 (String.mk w) (DiskItem.file sz)))
              s.cur)
            ∧ getAt (modifyAt s.root p
                  (fun cs0 => insertChild cs0 (String.mk w) (DiskItem.file sz))) p
                = some (DiskItem.directory (insertChild cs (String.mk w) (DiskItem.file sz)))
            ∧ lookupChild (insertChild cs (String.mk w) (DiskItem.file sz)) (String.mk w)
                = some (DiskItem.file sz) := by
  constructor
  · intro htok
    refine ⟨?_, getAt_modifyAt p s.root cs _ hget, lookupChild_insertChild_self cs (String.mk w) _⟩
    simp [step, hcd, hls, htok, hcur]
  · intro first sz htok hdir hp
    refine ⟨?_, getAt_modifyAt p s.root cs _ hget, lookupChild_insertChild_self cs (String.mk w) _⟩
    simp [step, hcd, hls, htok, hdir, hcur, hget, hp]

/-- Witness for C10: `dir f` over an existing File child `f` succeeds and
rebinds `f` to a fresh empty Directory. -/
theorem claim_C10_witness :
    step { root := DiskItem.directory [("f", DiskItem.file 100)], cur := some [] } "dir f"
        = some (PState.mk
            (modifyAt (DiskItem.directory [("f", DiskItem.file 100)]) []
              (fun cs0 => insertChild cs0 (String.mk "f".data) (DiskItem.directory [])))
            (some []))
      ∧ getAt (modifyAt (DiskItem.directory [("f", DiskItem.file 100)]) []
            (fun cs0 => insertChild cs0 (String.mk "f".data) (DiskItem.directory []))) []
          = some (DiskItem.directory
              (insertChild [("f", DiskItem.file 100)] (String.mk "f".data) (DiskItem.directory [])))
      ∧ lookupChild
          (insertChild [("f", DiskItem.file 100)] (String.mk "f".data) (DiskItem.directory []))
          (String.mk "f".data)
          = some (DiskItem.directory []) :=
  (claim_C10_duplicate_overwrites
      { root := DiskItem.directory [("f", DiskItem.file 100)], cur := some [] }
      "dir f" "f".data [] [("f", DiskItem.file 100)] (DiskItem.file 100)
      rfl rfl rfl (by decide) (by decide)).1 (by decide)

end Day07
